import Mathlib

/-!
Shallow embedding of the `advent2021` repository (day 19 scanner
normalization, beacon-line parsing, and the CLI dispatch in `main.rs`),
with theorems checking the natural-language specification against it.

Modelling conventions:
* Rust `i32` coordinates are modelled as `Int` (the verified claims do not
  hinge on overflow behaviour).
* `HashSet<i32>` fingerprints are modelled as duplicate-free `List Int`
  (`List.dedup` plays the role of collecting into a set).
* `HashMap<Position, …>` is modelled as an association list whose keys are
  duplicate-free; iteration order, unspecified for the Rust hash map, is
  fixed to insertion order.
* A Rust panic is modelled as `Option.none`.
* The unbounded `while let` loop of `normalize_scanners` is modelled with
  explicit fuel; `none` means the loop did not finish within the fuel.
-/

namespace Advent2021

/-- `Position` from day19.rs: a point with three `i32` coordinates. -/
structure Position where
  x : Int
  y : Int
  z : Int
deriving DecidableEq

/-- Componentwise subtraction, `impl Sub for Position`. -/
def Position.sub (p q : Position) : Position :=
  ⟨p.x - q.x, p.y - q.y, p.z - q.z⟩

instance : Sub Position := ⟨Position.sub⟩

/-- `square_distance` from day19.rs. -/
def square_distance (b1 b2 : Position) : Int :=
  (b1.x - b2.x) ^ 2 + (b1.y - b2.y) ^ 2 + (b1.z - b2.z) ^ 2

/-- `get_distances` from day19.rs: the set of squared distances from
`beacon` to every other beacon of the list (collected into a `HashSet`,
hence deduplicated). -/
def get_distances (beacon : Position) (beacons : List Position) : List Int :=
  ((beacons.filter (fun b => beacon != b)).map
    (fun b => square_distance beacon b)).dedup

/-- `have_common_distances` from day19.rs:
`d1.iter().filter(|d| d2.contains(*d)).take(11).count() == 11`. -/
def have_common_distances (d1 d2 : List Int) : Bool :=
  ((d1.filter (fun d => d2.contains d)).take 11).length == 11

/-- `Scanner` from day19.rs: its beacon map (beacon position to distance
fingerprint) and its own position. -/
structure Scanner where
  beacons : List (Position × List Int)
  position : Position
deriving DecidableEq

/-- `Scanner::new` from day19.rs: fingerprint every beacon and place the
scanner at the origin. Collecting into a `HashMap` deduplicates keys; the
fingerprint of a duplicated key is identical either way, so the key list is
deduplicated up front. -/
def Scanner.new (beacons : List Position) : Scanner :=
  { beacons := beacons.dedup.map (fun b => (b, get_distances b beacons)),
    position := ⟨0, 0, 0⟩ }

/-- `Scanner::find_common_beacons` from day19.rs: for each beacon of `self`
find the first beacon of `other` whose fingerprint passes
`have_common_distances`; keep the correspondence only if it has at least 12
entries. -/
def Scanner.find_common_beacons (self other : Scanner) :
    Option (List (Position × Position)) :=
  let common_beacons := self.beacons.filterMap (fun bd =>
    (other.beacons.find? (fun od => have_common_distances bd.2 od.2)).map
      (fun od => (bd.1, od.1)))
  if 12 ≤ common_beacons.length then some common_beacons else none

/-- `Scanner::transform` from day19.rs: apply the rotation to every beacon,
subtract the offset, and set the scanner position to the offset. -/
def Scanner.transform (self : Scanner) (t : Position → Position)
    (position : Position) : Scanner :=
  { beacons := self.beacons.map (fun pd => (t pd.1 - position, pd.2)),
    position := position }

/-- The `fold_while` of `get_scanner_position`: scan the offsets, keeping
the first one and stopping with `none` as soon as a different one shows
up. -/
def fold_while_diff : List Position → Option Position → Option Position
  | [], acc => acc
  | d :: rest, none => fold_while_diff rest (some d)
  | d :: rest, some p =>
    if p = d then fold_while_diff rest (some p) else none

/-- `get_scanner_position` from day19.rs: the common offset
`t(beacon) - normalized_beacon` over the whole correspondence, if all pairs
agree. -/
def get_scanner_position (common_beacons : List (Position × Position))
    (t : Position → Position) : Option Position :=
  fold_while_diff (common_beacons.map (fun pr => t pr.1 - pr.2)) none

/-- `TRANSFORMATIONS` from day19.rs: the 24 axis-aligned rotations, in
source order. -/
def TRANSFORMATIONS : List (Position → Position) :=
  [fun p => ⟨p.x, p.y, p.z⟩,
   fun p => ⟨p.x, -p.z, p.y⟩,
   fun p => ⟨p.x, -p.y, -p.z⟩,
   fun p => ⟨p.x, p.z, -p.y⟩,
   fun p => ⟨-p.y, p.x, p.z⟩,
   fun p => ⟨p.z, p.x, p.y⟩,
   fun p => ⟨p.y, p.x, -p.z⟩,
   fun p => ⟨-p.z, p.x, -p.y⟩,
   fun p => ⟨-p.x, -p.y, p.z⟩,
   fun p => ⟨-p.x, -p.z, -p.y⟩,
   fun p => ⟨-p.x, p.y, -p.z⟩,
   fun p => ⟨-p.x, p.z, p.y⟩,
   fun p => ⟨p.y, -p.x, p.z⟩,
   fun p => ⟨p.z, -p.x, -p.y⟩,
   fun p => ⟨-p.y, -p.x, -p.z⟩,
   fun p => ⟨-p.z, -p.x, p.y⟩,
   fun p => ⟨-p.z, p.y, p.x⟩,
   fun p => ⟨p.y, p.z, p.x⟩,
   fun p => ⟨p.z, -p.y, p.x⟩,
   fun p => ⟨-p.y, -p.z, p.x⟩,
   fun p => ⟨-p.z, -p.y, -p.x⟩,
   fun p => ⟨-p.y, p.z, -p.x⟩,
   fun p => ⟨p.z, p.y, -p.x⟩,
   fun p => ⟨p.y, -p.z, -p.x⟩]

/-- `find_matching_transformation` from day19.rs: the first of the 24
rotations yielding a single consistent offset, paired with that offset. -/
def find_matching_transformation
    (common_beacons : List (Position × Position)) :
    Option ((Position → Position) × Position) :=
  TRANSFORMATIONS.findSome? (fun t =>
    (get_scanner_position common_beacons t).map (fun position => (t, position)))

/-- The `while let` loop of `normalize_scanners`, with explicit fuel. The
popped scanner is either resolved against some already-normalized scanner
and appended to the pool, or pushed to the back of the queue. `none` means
the loop did not finish within `fuel` iterations. -/
def normalize_loop : Nat → List Scanner → List Scanner → Option (List Scanner)
  | _, normalized, [] => some normalized
  | 0, _, _ :: _ => none
  | fuel + 1, normalized, scanner :: rest =>
    match normalized.findSome?
        (fun ns => scanner.find_common_beacons ns) with
    | some common_beacons =>
      match find_matching_transformation common_beacons with
      | some (t, position) =>
        normalize_loop fuel (normalized ++ [scanner.transform t position]) rest
      | none => normalize_loop fuel normalized (rest ++ [scanner])
    | none => normalize_loop fuel normalized (rest ++ [scanner])

/-- `normalize_scanners` from day19.rs: seed the resolved pool with the
first scanner and run the loop on the rest. -/
def normalize_scanners (fuel : Nat) : List Scanner → Option (List Scanner)
  | [] => some []
  | s :: rest => normalize_loop fuel [s] rest

/-- Rust `str::split(',')` on a list of characters: the comma-separated
fields, never empty (splitting the empty string yields one empty field). -/
def splitOn (sep : Char) : List Char → List (List Char)
  | [] => [[]]
  | c :: rest =>
    match splitOn sep rest with
    | [] => [[c]]
    | f :: fs => if c = sep then [] :: f :: fs else (c :: f) :: fs

/-- An unsigned decimal digit string: `none` unless nonempty and all
digits. -/
def parse_digits (s : List Char) : Option Nat :=
  if s.isEmpty then none
  else if s.all (fun c => c.isDigit) then
    some (s.foldl (fun n c => 10 * n + (c.toNat - 48)) 0)
  else none

/-- Rust `str::parse::<i32>`: optional sign, digits, and the `i32` range
check. `none` models a parse error. -/
def parse_i32 (s : List Char) : Option Int :=
  match s with
  | '+' :: rest =>
    (parse_digits rest).bind
      (fun n => if n ≤ 2147483647 then some (n : Int) else none)
  | '-' :: rest =>
    (parse_digits rest).bind
      (fun n => if n ≤ 2147483648 then some (-(n : Int)) else none)
  | _ =>
    (parse_digits s).bind
      (fun n => if n ≤ 2147483647 then some (n : Int) else none)

/-- `impl From<&str> for Position` together with
`impl FromIterator<i32> for Position`: split on commas, take the first
three fields, parse each as `i32`. `none` models the panic of the
unguarded `unwrap`s. -/
def Position.from_line (line : List Char) : Option Position :=
  match (splitOn ',' line).take 3 with
  | [a, b, c] =>
    match parse_i32 a, parse_i32 b, parse_i32 c with
    | some x, some y, some z => some (⟨x, y, z⟩ : Position)
    | _, _, _ => none
  | _ => none

/-- Rust `str::parse::<u8>`: optional leading plus, digits, range check;
a leading minus is rejected for the unsigned type. -/
def parse_u8 (s : List Char) : Option Nat :=
  match s with
  | '+' :: rest =>
    (parse_digits rest).bind (fun n => if n ≤ 255 then some n else none)
  | _ =>
    (parse_digits s).bind (fun n => if n ≤ 255 then some n else none)

/-- The `number()` of each puzzle registered in `puzzles()` of
`puzzles/mod.rs`, in registration order (day22.rs exists but is not
declared as a module, so it is absent). -/
def registered_puzzle_numbers : List Nat :=
  [1, 2, 3, 4, 5, 6, 7, 8, 9, 10, 11, 12, 13, 14, 15, 16, 17, 18, 19, 20, 21]

/-- `puzzles()` from puzzles/mod.rs: the dispatch map from `number()` to
the puzzle, each boxed puzzle abstracted to its number. -/
def puzzles : List (Nat × Nat) :=
  registered_puzzle_numbers.map (fun n => (n, n))

/-- `read_day_from_args` from main.rs: `env::args().nth(1)` parsed as
`u8`. -/
def read_day_from_args (args : List (List Char)) : Option Nat :=
  (args.get? 1).bind (fun a => parse_u8 a)

/-- `main` from main.rs, abstracted to which puzzle (if any) it executes:
`none` is the silent no-op. -/
def main_run (args : List (List Char)) : Option Nat :=
  (read_day_from_args args).bind (fun day => puzzles.lookup day)

/-! ## Helper lemmas -/

lemma contains_eq_true_iff (l : List Int) (a : Int) :
    l.contains a = true ↔ a ∈ l := by
  simp [List.contains]

lemma length_filter_contains (d1 d2 : List Int) (h : d1.Nodup) :
    (d1.filter (fun d => d2.contains d)).length =
      (d1.toFinset ∩ d2.toFinset).card := by
  induction d1 with
  | nil => simp
  | cons a t ih =>
    rw [List.nodup_cons] at h
    by_cases hm : a ∈ d2
    · have hc : d2.contains a = true := (contains_eq_true_iff d2 a).mpr hm
      have hnot : a ∉ t.toFinset ∩ d2.toFinset := by
        simp only [Finset.mem_inter, List.mem_toFinset]
        exact fun hx => h.1 hx.1
      rw [List.filter_cons_of_pos (by simpa using hc), List.toFinset_cons,
        Finset.insert_inter_of_mem (by simpa using hm),
        Finset.card_insert_of_not_mem hnot, List.length_cons, ih h.2]
    · rw [List.filter_cons_of_neg (by simpa using hm), List.toFinset_cons,
        Finset.insert_inter_of_not_mem (by simpa using hm), ih h.2]

lemma have_common_distances_iff (d1 d2 : List Int) :
    have_common_distances d1 d2 = true ↔
      11 ≤ (d1.filter (fun d => d2.contains d)).length := by
  unfold have_common_distances
  rw [beq_iff_eq, List.length_take]
  omega

/-! ## Claim C1 -/

/-- Claim C1, counterexample: two identical fingerprints with exactly 11
distinct common distance values are already treated as the same beacon by
`have_common_distances`, so the threshold in the claim (at least 12 shared
values) is wrong. -/
theorem claim_C1_counterexample :
    have_common_distances [0, 1, 2, 3, 4, 5, 6, 7, 8, 9, 10]
        [0, 1, 2, 3, 4, 5, 6, 7, 8, 9, 10] = true ∧
      (([0, 1, 2, 3, 4, 5, 6, 7, 8, 9, 10] : List Int).toFinset ∩
        ([0, 1, 2, 3, 4, 5, 6, 7, 8, 9, 10] : List Int).toFinset).card = 11 := by
  constructor
  · decide
  · decide

/-- Claim C1 as amended: the matcher treats two beacons as the same
physical beacon exactly when their fingerprints share at least 11
(not 12) common distance values, the count being short-circuited once 11
is reached. -/
theorem claim_C1_thm (d1 d2 : List Int) (h : d1.Nodup) :
    have_common_distances d1 d2 = true ↔
      11 ≤ (d1.toFinset ∩ d2.toFinset).card := by
  rw [have_common_distances_iff, length_filter_contains d1 d2 h]

/-- Concrete instantiation of `claim_C1_thm`. -/
theorem claim_C1_witness :
    ([(0 : Int)].Nodup) ∧
      (have_common_distances [0] [0] = true ↔
        11 ≤ (([(0 : Int)].toFinset) ∩ (([(0 : Int)] : List Int).toFinset)).card) :=
  ⟨by decide, claim_C1_thm [0] [0] (by decide)⟩

/-! ## Claim C2 -/

/-- Claim C2, counterexample: for the duplicate-free beacon list
`[(0,0,0), (1,0,0), (-1,0,0)]` the fingerprint of `(0,0,0)` is the single
distance `{1}` (both other beacons are at squared distance 1), so its size
is 1 and not `|B| - 1 = 2`. -/
theorem claim_C2_counterexample :
    ([(⟨0, 0, 0⟩ : Position), ⟨1, 0, 0⟩, ⟨-1, 0, 0⟩] : List Position).Nodup ∧
      ((Scanner.new [(⟨0, 0, 0⟩ : Position), ⟨1, 0, 0⟩, ⟨-1, 0, 0⟩]).beacons.any
        (fun bd => bd.2.length !=
          ([(⟨0, 0, 0⟩ : Position), ⟨1, 0, 0⟩, ⟨-1, 0, 0⟩] : List Position).length - 1))
        = true := by
  constructor
  · decide
  · decide

/-- Claim C2 as amended: for a scanner built by `Scanner::new` from a
duplicate-free beacon list `B`, the fingerprint of a beacon is the set of
distinct squared distances to the other beacons; its size is at most
`|B| - 1`, with a strict gap whenever two of those distances collide. -/
theorem claim_C2_thm (B : List Position) (h : B.Nodup)
    (bd : Position × List Int) (hbd : bd ∈ (Scanner.new B).beacons) :
    bd.2.length =
        (((B.filter (fun b => bd.1 != b)).map
          (fun b => square_distance bd.1 b)).toFinset).card ∧
      bd.2.length ≤ B.length - 1 := by
  obtain ⟨b, hb, rfl⟩ : ∃ b ∈ B.dedup, (b, get_distances b B) = bd := by
    simpa [Scanner.new] using hbd
  have hbB : b ∈ B := List.mem_dedup.mp hb
  dsimp only
  constructor
  · rw [List.card_toFinset]
    rfl
  · have h1 : (get_distances b B).length ≤
        ((B.filter (fun x => b != x)).map
          (fun x => square_distance b x)).length :=
      (List.dedup_sublist _).length_le
    rw [List.length_map] at h1
    have h2 : (B.filter (fun x => b != x)).length < B.length := by
      rw [List.length_filter_lt_length_iff_exists]
      exact ⟨b, hbB, by simp⟩
    omega

/-- Concrete instantiation of `claim_C2_thm`. -/
theorem claim_C2_witness :
    ([(⟨0, 0, 0⟩ : Position), ⟨1, 0, 0⟩].Nodup) ∧
      ((⟨0, 0, 0⟩, [1]) ∈
        (Scanner.new [(⟨0, 0, 0⟩ : Position), ⟨1, 0, 0⟩]).beacons) ∧
      (((⟨0, 0, 0⟩, [1]) : Position × List Int).2.length =
          ((([(⟨0, 0, 0⟩ : Position), ⟨1, 0, 0⟩].filter
            (fun b => ((⟨0, 0, 0⟩, [1]) : Position × List Int).1 != b)).map
            (fun b => square_distance ((⟨0, 0, 0⟩, [1]) : Position × List Int).1 b)).toFinset).card ∧
        ((⟨0, 0, 0⟩, [1]) : Position × List Int).2.length ≤
          [(⟨0, 0, 0⟩ : Position), ⟨1, 0, 0⟩].length - 1) :=
  ⟨by decide, by decide,
    claim_C2_thm [(⟨0, 0, 0⟩ : Position), ⟨1, 0, 0⟩] (by decide)
      (⟨0, 0, 0⟩, [1]) (by decide)⟩

/-! ## Claim C3 -/

lemma fold_while_diff_some_iff (l : List Position) (p d : Position) :
    fold_while_diff l (some p) = some d ↔ p = d ∧ ∀ x ∈ l, x = p := by
  induction l generalizing p with
  | nil => simp [fold_while_diff]
  | cons x rest ih =>
    rw [fold_while_diff]
    by_cases hx : p = x
    · subst hx
      rw [if_pos rfl, ih]
      constructor
      · rintro ⟨rfl, hall⟩
        exact ⟨rfl, fun y hy => by
          rcases List.mem_cons.mp hy with rfl | hy
          · rfl
          · exact hall y hy⟩
      · rintro ⟨rfl, hall⟩
        exact ⟨rfl, fun y hy => hall y (List.mem_cons_of_mem _ hy)⟩
    · rw [if_neg hx]
      simp only [false_iff, reduceCtorEq]
      rintro ⟨rfl, hall⟩
      exact hx (hall x (List.mem_cons_self _ _)).symm

lemma fold_while_diff_start_some_iff (l : List Position) (d : Position) :
    fold_while_diff l none = some d ↔ l ≠ [] ∧ ∀ x ∈ l, x = d := by
  cases l with
  | nil => simp [fold_while_diff]
  | cons x rest =>
    rw [fold_while_diff, fold_while_diff_some_iff]
    constructor
    · rintro ⟨rfl, hall⟩
      refine ⟨List.cons_ne_nil x rest, fun y hy => ?_⟩
      rcases List.mem_cons.mp hy with rfl | hy
      · rfl
      · exact hall y hy
    · rintro ⟨-, hall⟩
      have hx : x = d := hall x (List.mem_cons_self _ _)
      subst hx
      exact ⟨rfl, fun y hy => hall y (List.mem_cons_of_mem _ hy)⟩

lemma get_scanner_position_some_iff (m : List (Position × Position))
    (t : Position → Position) (d : Position) (hm : m ≠ []) :
    get_scanner_position m t = some d ↔ ∀ pr ∈ m, t pr.1 - pr.2 = d := by
  unfold get_scanner_position
  rw [fold_while_diff_start_some_iff]
  constructor
  · rintro ⟨-, hall⟩
    intro pr hpr
    exact hall _ (List.mem_map_of_mem _ hpr)
  · intro hall
    constructor
    · cases m with
      | nil => exact absurd rfl hm
      | cons a l => simp
    · intro x hx
      obtain ⟨pr, hpr, rfl⟩ := List.mem_map.mp hx
      exact hall pr hpr

lemma get_scanner_position_none_iff (m : List (Position × Position))
    (t : Position → Position) (hm : m ≠ []) :
    get_scanner_position m t = none ↔
      ¬ ∃ d, ∀ pr ∈ m, t pr.1 - pr.2 = d := by
  constructor
  · intro h hex
    obtain ⟨d, hd⟩ := hex
    rw [(get_scanner_position_some_iff m t d hm).mpr hd] at h
    exact Option.noConfusion h
  · intro hnex
    cases hgsp : get_scanner_position m t with
    | none => rfl
    | some d =>
      exact absurd ⟨d, (get_scanner_position_some_iff m t d hm).mp hgsp⟩ hnex

/-- Claim C3: on a non-empty correspondence, `find_matching_transformation`
returns `some (t, d)` only if `t` is one of the 24 tabulated rotations and
every pair of the correspondence yields the same offset `d = t p - np`, and
it returns `none` exactly when no tabulated rotation yields one identical
offset for all pairs. -/
theorem claim_C3_thm (m : List (Position × Position)) (hm : m ≠ []) :
    (∀ t d, find_matching_transformation m = some (t, d) →
      t ∈ TRANSFORMATIONS ∧ ∀ pr ∈ m, t pr.1 - pr.2 = d) ∧
      (find_matching_transformation m = none ↔
        ∀ t ∈ TRANSFORMATIONS, ¬ ∃ d, ∀ pr ∈ m, t pr.1 - pr.2 = d) := by
  constructor
  · intro t d hfmt
    obtain ⟨t', ht', heq⟩ := List.exists_of_findSome?_eq_some hfmt
    rw [Option.map_eq_some'] at heq
    obtain ⟨d', hd', heq2⟩ := heq
    rw [Prod.mk.injEq] at heq2
    obtain ⟨h1, h2⟩ := heq2
    rw [h1, h2] at hd'
    exact ⟨h1 ▸ ht', (get_scanner_position_some_iff m t d hm).mp hd'⟩
  · unfold find_matching_transformation
    rw [List.findSome?_eq_none_iff]
    constructor
    · intro hall t ht
      have := hall t ht
      rw [Option.map_eq_none'] at this
      exact (get_scanner_position_none_iff m t hm).mp this
    · intro hall t ht
      rw [Option.map_eq_none']
      exact (get_scanner_position_none_iff m t hm).mpr (hall t ht)

/-- Concrete instantiation of `claim_C3_thm`. -/
theorem claim_C3_witness :
    (([((⟨1, 2, 3⟩ : Position), (⟨4, 5, 6⟩ : Position))] :
        List (Position × Position)) ≠ []) ∧
      ((∀ t d, find_matching_transformation
            [((⟨1, 2, 3⟩ : Position), (⟨4, 5, 6⟩ : Position))] = some (t, d) →
          t ∈ TRANSFORMATIONS ∧
            ∀ pr ∈ ([((⟨1, 2, 3⟩ : Position), (⟨4, 5, 6⟩ : Position))] :
              List (Position × Position)), t pr.1 - pr.2 = d) ∧
        (find_matching_transformation
            [((⟨1, 2, 3⟩ : Position), (⟨4, 5, 6⟩ : Position))] = none ↔
          ∀ t ∈ TRANSFORMATIONS, ¬ ∃ d,
            ∀ pr ∈ ([((⟨1, 2, 3⟩ : Position), (⟨4, 5, 6⟩ : Position))] :
              List (Position × Position)), t pr.1 - pr.2 = d)) :=
  ⟨by decide,
    claim_C3_thm [((⟨1, 2, 3⟩ : Position), (⟨4, 5, 6⟩ : Position))]
      (by decide)⟩

/-! ## Claim C4 -/

lemma mem_new_beacons (B : List Position) (bd : Position × List Int)
    (h : bd ∈ (Scanner.new B).beacons) :
    bd.1 ∈ B ∧ bd.2 = get_distances bd.1 B := by
  obtain ⟨b, hb, rfl⟩ : ∃ b ∈ B.dedup, (b, get_distances b B) = bd := by
    simpa [Scanner.new] using h
  exact ⟨List.mem_dedup.mp hb, rfl⟩

lemma get_distances_nodup (b : Position) (B : List Position) :
    (get_distances b B).Nodup :=
  List.nodup_dedup _

lemma get_distances_length_le (b : Position) (B : List Position)
    (hb : b ∈ B) : (get_distances b B).length ≤ B.length - 1 := by
  have h1 : (get_distances b B).length ≤
      ((B.filter (fun x => b != x)).map
        (fun x => square_distance b x)).length :=
    (List.dedup_sublist _).length_le
  rw [List.length_map] at h1
  have h2 : (B.filter (fun x => b != x)).length < B.length := by
    rw [List.length_filter_lt_length_iff_exists]
    exact ⟨b, hb, by simp⟩
  omega

lemma length_filter_contains_le (d1 d2 : List Int) (h : d1.Nodup) :
    (d1.filter (fun d => d2.contains d)).length ≤ d2.length := by
  rw [length_filter_contains d1 d2 h]
  calc (d1.toFinset ∩ d2.toFinset).card
      ≤ d2.toFinset.card := Finset.card_le_card Finset.inter_subset_right
    _ = d2.dedup.length := List.card_toFinset d2
    _ ≤ d2.length := (List.dedup_sublist d2).length_le

lemma new_beacons_length (B : List Position) (h : B.Nodup) :
    (Scanner.new B).beacons.length = B.length := by
  unfold Scanner.new
  rw [List.length_map, h.dedup]

lemma common_keys_sublist (other : Scanner) (l : List (Position × List Int)) :
    ((l.filterMap (fun bd =>
      (other.beacons.find? (fun od => have_common_distances bd.2 od.2)).map
        (fun od => (bd.1, od.1)))).map Prod.fst).Sublist (l.map Prod.fst) := by
  induction l with
  | nil => exact List.Sublist.refl []
  | cons bd t ih =>
    rw [List.filterMap_cons, List.map_cons]
    cases hfind : other.beacons.find?
        (fun od => have_common_distances bd.2 od.2) with
    | none => exact ih.cons bd.1
    | some od => exact ih.cons₂ bd.1

lemma new_beacons_keys (B : List Position) :
    (Scanner.new B).beacons.map Prod.fst = B.dedup := by
  unfold Scanner.new
  rw [List.map_map]
  exact List.map_id B.dedup

/-- Claim C4: `find_common_beacons` accepts a correspondence only when it
has at least 12 distinct entries, and it returns `none` (a negative result,
not an error) whenever either scanner was built from fewer than 12
beacons; in particular a scanner with fewer than 12 beacons never matches
any other scanner. -/
theorem claim_C4_thm (LA LB : List Position) (hA : LA.Nodup)
    (hB : LB.Nodup) :
    (∀ m, (Scanner.new LA).find_common_beacons (Scanner.new LB) = some m →
      12 ≤ m.length ∧ (m.map Prod.fst).Nodup) ∧
      (LA.length < 12 ∨ LB.length < 12 →
        (Scanner.new LA).find_common_beacons (Scanner.new LB) = none) := by
  constructor
  · intro m hm
    unfold Scanner.find_common_beacons at hm
    by_cases hc : 12 ≤ (((Scanner.new LA).beacons).filterMap (fun bd =>
        (((Scanner.new LB).beacons).find?
          (fun od => have_common_distances bd.2 od.2)).map
            (fun od => (bd.1, od.1)))).length
    · rw [if_pos hc] at hm
      cases hm
      refine ⟨hc, ?_⟩
      have hsub := common_keys_sublist (Scanner.new LB)
        (Scanner.new LA).beacons
      have hkeys : ((Scanner.new LA).beacons.map Prod.fst).Nodup := by
        rw [new_beacons_keys]
        exact List.nodup_dedup LA
      exact hkeys.sublist hsub
    · rw [if_neg hc] at hm
      exact Option.noConfusion hm
  · intro hlt
    unfold Scanner.find_common_beacons
    rcases hlt with hlt | hlt
    · rw [if_neg]
      intro hc
      have hle : (((Scanner.new LA).beacons).filterMap (fun bd =>
          (((Scanner.new LB).beacons).find?
            (fun od => have_common_distances bd.2 od.2)).map
              (fun od => (bd.1, od.1)))).length ≤
          (Scanner.new LA).beacons.length := List.length_filterMap_le _ _
      rw [new_beacons_length LA hA] at hle
      omega
    · have hnone : ∀ bd ∈ (Scanner.new LA).beacons,
          ((Scanner.new LB).beacons.find?
            (fun od => have_common_distances bd.2 od.2)) = none := by
        intro bd hbd
        rw [List.find?_eq_none]
        intro od hod hhave
        obtain ⟨hodB, hodeq⟩ := mem_new_beacons LB od hod
        have hd1 : bd.2.Nodup := by
          obtain ⟨-, hbdeq⟩ := mem_new_beacons LA bd hbd
          rw [hbdeq]
          exact get_distances_nodup _ _
        have h11 : 11 ≤ (bd.2.filter (fun d => od.2.contains d)).length :=
          (have_common_distances_iff bd.2 od.2).mp hhave
        have hle1 : (bd.2.filter (fun d => od.2.contains d)).length ≤
            od.2.length := length_filter_contains_le bd.2 od.2 hd1
        have hle2 : od.2.length ≤ LB.length - 1 := by
          rw [hodeq]
          exact get_distances_length_le od.1 LB hodB
        omega
      have hempty : ((Scanner.new LA).beacons).filterMap (fun bd =>
          (((Scanner.new LB).beacons).find?
            (fun od => have_common_distances bd.2 od.2)).map
              (fun od => (bd.1, od.1))) = [] := by
        rw [List.filterMap_eq_nil_iff]
        intro bd hbd
        rw [hnone bd hbd]
        rfl
      rw [hempty]
      simp

/-- Concrete instantiation of `claim_C4_thm`. -/
theorem claim_C4_witness :
    ([(⟨0, 0, 0⟩ : Position)].Nodup) ∧ ([(⟨5, 5, 5⟩ : Position)].Nodup) ∧
      ((∀ m, (Scanner.new [(⟨0, 0, 0⟩ : Position)]).find_common_beacons
            (Scanner.new [(⟨5, 5, 5⟩ : Position)]) = some m →
          12 ≤ m.length ∧ (m.map Prod.fst).Nodup) ∧
        ([(⟨0, 0, 0⟩ : Position)].length < 12 ∨
            [(⟨5, 5, 5⟩ : Position)].length < 12 →
          (Scanner.new [(⟨0, 0, 0⟩ : Position)]).find_common_beacons
            (Scanner.new [(⟨5, 5, 5⟩ : Position)]) = none)) :=
  ⟨by decide, by decide,
    claim_C4_thm [(⟨0, 0, 0⟩ : Position)] [(⟨5, 5, 5⟩ : Position)]
      (by decide) (by decide)⟩

/-! ## Claim C5 -/

/-- Twelve beacons in generic position: every beacon's fingerprint has 11
distinct distances. -/
def c5_points : List Position :=
  [⟨0, 0, 3⟩, ⟨1, 1, 0⟩, ⟨2, 4, 0⟩, ⟨3, 9, 0⟩, ⟨4, 16, 0⟩, ⟨5, 25, 0⟩,
   ⟨6, 36, 0⟩, ⟨7, 49, 0⟩, ⟨8, 64, 0⟩, ⟨9, 81, 0⟩, ⟨10, 100, 0⟩,
   ⟨11, 121, 0⟩]

/-- The reference scanner of an already-resolved pool. -/
def c5_first : Scanner := Scanner.new c5_points

/-- A second scanner of the resolved pool: same reference-frame beacons,
resolved at position `(1, 0, 0)`. -/
def c5_second : Scanner :=
  { beacons := c5_first.beacons, position := ⟨1, 0, 0⟩ }

/-- The already-fully-resolved pool: every beacon is expressed in the
frame of the first scanner, and each scanner carries its resolved
position. -/
def c5_pool : List Scanner := [c5_first, c5_second]

/-- Claim C5, counterexample: re-running `normalize_scanners` on the
already-resolved pool `c5_pool` is not a no-op — the second scanner's
stored position `(1, 0, 0)` is replaced by the re-derived offset
`(0, 0, 0)`, so the output differs from the input. -/
theorem claim_C5_counterexample :
    (normalize_scanners 2 c5_pool).map (fun l => l.map Scanner.position) =
        some [⟨0, 0, 0⟩, ⟨0, 0, 0⟩] ∧
      c5_pool.map Scanner.position = [⟨0, 0, 0⟩, ⟨1, 0, 0⟩] ∧
      normalize_scanners 2 c5_pool ≠ some c5_pool := by
  refine ⟨by decide, by decide, by decide⟩

/-- Claim C5 as amended: re-running the normalizer on an
already-fully-resolved pool is not a no-op in general. `transform` never
reads the stored position of the scanner being re-resolved — the position
field is always replaced by the newly derived offset — so a resolved
scanner whose stored position differs from that offset comes back changed;
the beacon sets themselves are preserved when the re-discovered
transformation is the identity with zero offset, as in the counterexample
pool. -/
theorem claim_C5_thm :
    (∀ (s : Scanner) (t : Position → Position) (d p : Position),
      (s.transform t d).position = d ∧
        (Scanner.mk s.beacons p).transform t d = s.transform t d) ∧
      (normalize_scanners 2 c5_pool).map (fun l => l.map Scanner.beacons) =
        some (c5_pool.map Scanner.beacons) := by
  constructor
  · intro s t d p
    exact ⟨rfl, rfl⟩
  · decide

/-! ## Claim C6 -/

/-- Eleven beacons in the plane `z = 0`, in generic position. -/
def c6_base : List Position :=
  [⟨1, 1, 0⟩, ⟨2, 4, 0⟩, ⟨3, 9, 0⟩, ⟨4, 16, 0⟩, ⟨5, 25, 0⟩, ⟨6, 36, 0⟩,
   ⟨7, 49, 0⟩, ⟨8, 64, 0⟩, ⟨9, 81, 0⟩, ⟨10, 100, 0⟩, ⟨11, 121, 0⟩]

/-- Scanner with the 11 planar beacons, one beacon above the plane and its
mirror image below it: the mirror beacon has the same distances to the
planar beacons as the beacon above. -/
def c6_A : Scanner :=
  Scanner.new ((⟨0, 0, 3⟩ : Position) :: c6_base ++ [⟨0, 0, -3⟩])

/-- Scanner with the same beacons except the mirror beacon. -/
def c6_B : Scanner := Scanner.new ((⟨0, 0, 3⟩ : Position) :: c6_base)

/-- Claim C6, counterexample: matching `c6_A` against `c6_B` yields 13
pairs (both `(0,0,3)` and its mirror `(0,0,-3)` are matched to `(0,0,3)`),
but the reverse matching yields only the 12 identity pairs, which is not
the flipped pair set: the flipped pair `((0,0,3), (0,0,-3))` is absent. -/
theorem claim_C6_counterexample :
    ((c6_A.find_common_beacons c6_B).map (fun m =>
        decide (12 ≤ m.length ∧
          ((⟨0, 0, -3⟩, ⟨0, 0, 3⟩) : Position × Position) ∈ m)) = some true) ∧
      ((c6_B.find_common_beacons c6_A).map (fun m =>
        decide (12 ≤ m.length ∧
          ((⟨0, 0, 3⟩, ⟨0, 0, -3⟩) : Position × Position) ∉ m)) = some true) := by
  refine ⟨by decide, by decide⟩

/-- Claim C6 as amended: symmetry holds at the level of the fingerprint
test — `have_common_distances` is symmetric on duplicate-free
fingerprints — but `find_common_beacons` itself is not symmetric: the two
directions can return different pair sets when two beacons of one scanner
match the same beacon of the other, as in the counterexample. -/
theorem claim_C6_thm (d1 d2 : List Int) (h1 : d1.Nodup)
    (h2 : d2.Nodup) :
    have_common_distances d1 d2 = have_common_distances d2 d1 := by
  rw [Bool.eq_iff_iff, have_common_distances_iff, have_common_distances_iff,
    length_filter_contains d1 d2 h1, length_filter_contains d2 d1 h2,
    Finset.inter_comm]

/-- Concrete instantiation of `claim_C6_thm`. -/
theorem claim_C6_witness :
    ([(0 : Int)].Nodup) ∧ ([(1 : Int)].Nodup) ∧
      have_common_distances [0] [1] = have_common_distances [1] [0] :=
  ⟨by decide, by decide, claim_C6_thm [0] [1] (by decide) (by decide)⟩

/-! ## Claim C7 -/

lemma normalize_loop_extends (fuel : Nat) :
    ∀ (res pend out : List Scanner),
      normalize_loop fuel res pend = some out → ∃ tail, out = res ++ tail := by
  induction fuel with
  | zero =>
    intro res pend out h
    cases pend with
    | nil =>
      refine ⟨[], ?_⟩
      have h2 : res = out := Option.some.inj h
      rw [List.append_nil, h2]
    | cons a l => exact Option.noConfusion h
  | succ fuel ih =>
    intro res pend out h
    cases pend with
    | nil =>
      refine ⟨[], ?_⟩
      have h2 : res = out := Option.some.inj h
      rw [List.append_nil, h2]
    | cons s rest =>
      rw [normalize_loop] at h
      cases hfs : res.findSome? (fun ns => s.find_common_beacons ns) with
      | none =>
        rw [hfs] at h
        exact ih res (rest ++ [s]) out h
      | some cb =>
        rw [hfs] at h
        dsimp only at h
        cases hfm : find_matching_transformation cb with
        | none =>
          rw [hfm] at h
          exact ih res (rest ++ [s]) out h
        | some td =>
          obtain ⟨t, d⟩ := td
          rw [hfm] at h
          dsimp only at h
          obtain ⟨tail, rfl⟩ := ih (res ++ [s.transform t d]) rest out h
          exact ⟨[s.transform t d] ++ tail, (List.append_assoc _ _ _)⟩

/-- Claim C7: the resolved pool of `normalize_scanners` starts as exactly
the first scanner (which, built by `Scanner::new`, sits at the origin with
its beacons unchanged); every loop iteration either appends the
transformed popped scanner to the resolved pool or pushes it back onto the
pending queue; and whatever the loop returns extends the resolved pool it
started from — entries already resolved are never modified or removed. -/
theorem claim_C7_thm :
    (∀ (s : Scanner) (rest : List Scanner) (fuel : Nat),
        normalize_scanners fuel (s :: rest) = normalize_loop fuel [s] rest) ∧
      (∀ B : List Position, (Scanner.new B).position = ⟨0, 0, 0⟩) ∧
      (∀ (fuel : Nat) (res : List Scanner) (s : Scanner)
          (rest : List Scanner),
        (∃ t d, normalize_loop (fuel + 1) res (s :: rest) =
            normalize_loop fuel (res ++ [s.transform t d]) rest) ∨
          normalize_loop (fuel + 1) res (s :: rest) =
            normalize_loop fuel res (rest ++ [s])) ∧
      (∀ (fuel : Nat) (res pend out : List Scanner),
        normalize_loop fuel res pend = some out → ∃ tail, out = res ++ tail) := by
  refine ⟨fun s rest fuel => rfl, fun B => rfl, ?_, normalize_loop_extends⟩
  intro fuel res s rest
  cases hfs : res.findSome? (fun ns => s.find_common_beacons ns) with
  | none =>
    right
    rw [normalize_loop, hfs]
  | some cb =>
    cases hfm : find_matching_transformation cb with
    | none =>
      right
      rw [normalize_loop, hfs]
      dsimp only
      rw [hfm]
    | some td =>
      obtain ⟨t, d⟩ := td
      left
      refine ⟨t, d, ?_⟩
      rw [normalize_loop, hfs]
      dsimp only
      rw [hfm]

/-- Concrete instantiation of `claim_C7_thm`. -/
theorem claim_C7_witness :
    (normalize_loop 1 [Scanner.new []] [] = some [Scanner.new []]) ∧
      ∃ tail, [Scanner.new []] = [Scanner.new []] ++ tail :=
  ⟨by decide,
    claim_C7_thm.2.2.2 1 [Scanner.new []] [] [Scanner.new []] (by decide)⟩

/-! ## Claim C8 -/

/-- Claim C8: the `TRANSFORMATIONS` table holds exactly 24 pairwise
distinct entries, and each entry is a pure rotation with no translation:
it fixes the origin and preserves the squared Euclidean distance between
any two positions. -/
theorem claim_C8_thm :
    TRANSFORMATIONS.length = 24 ∧
      TRANSFORMATIONS.Pairwise (fun t1 t2 => ∃ p, t1 p ≠ t2 p) ∧
      ∀ t ∈ TRANSFORMATIONS,
        t ⟨0, 0, 0⟩ = ⟨0, 0, 0⟩ ∧
          ∀ p q, square_distance (t p) (t q) = square_distance p q := by
  refine ⟨rfl, ?_, ?_⟩
  · have h : (TRANSFORMATIONS.map (fun t => t ⟨1, 2, 3⟩)).Nodup := by decide
    exact (List.pairwise_map.mp h).imp (fun hne => ⟨⟨1, 2, 3⟩, hne⟩)
  · intro t ht
    fin_cases ht <;>
      exact ⟨by decide, fun p q => by simp only [square_distance]; try ring⟩

/-! ## Claim C9 -/

lemma lookup_pair_map (d : Nat) (l : List Nat) :
    (l.map (fun n => (n, n))).lookup d = if d ∈ l then some d else none := by
  induction l with
  | nil => simp [List.lookup]
  | cons a t ih =>
    by_cases h : d = a
    · subst h
      simp [List.lookup]
    · have hbeq : (d == a) = false := beq_eq_false_iff_ne.mpr h
      simp [List.lookup, hbeq, h, ih]

/-- Claim C9: `main` runs a puzzle only when the first positional argument
parses as a `u8` that is the number of a registered puzzle, and it is a
silent no-op (`none`, no error) exactly when the argument is absent, fails
to parse, or matches no registered puzzle. -/
theorem claim_C9_thm (args : List (List Char)) :
    (∀ p, main_run args = some p →
      ∃ a, args.get? 1 = some a ∧ parse_u8 a = some p ∧
        p ∈ registered_puzzle_numbers) ∧
      (main_run args = none ↔
        args.get? 1 = none ∨
          ∃ a, args.get? 1 = some a ∧
            (parse_u8 a = none ∨
              ∃ d, parse_u8 a = some d ∧ d ∉ registered_puzzle_numbers)) := by
  unfold main_run read_day_from_args puzzles
  cases harg : args.get? 1 with
  | none => simp
  | some a =>
    rw [Option.some_bind]
    cases hp : parse_u8 a with
    | none => simp [hp]
    | some d =>
      rw [Option.some_bind, lookup_pair_map d registered_puzzle_numbers]
      by_cases hd : d ∈ registered_puzzle_numbers
      · rw [if_pos hd]
        constructor
        · intro p hsome
          exact ⟨a, rfl, Option.some.inj hsome ▸ hp, Option.some.inj hsome ▸ hd⟩
        · simp [hp, hd]
      · rw [if_neg hd]
        constructor
        · intro p hsome
          exact Option.noConfusion hsome
        · simp only [true_iff]
          exact Or.inr ⟨a, rfl, Or.inr ⟨d, hp, hd⟩⟩

/-- Concrete instantiation of `claim_C9_thm` at an empty argument
list. -/
theorem claim_C9_witness :
    (∀ p, main_run [] = some p →
      ∃ a, ([] : List (List Char)).get? 1 = some a ∧ parse_u8 a = some p ∧
        p ∈ registered_puzzle_numbers) ∧
      (main_run [] = none ↔
        ([] : List (List Char)).get? 1 = none ∨
          ∃ a, ([] : List (List Char)).get? 1 = some a ∧
            (parse_u8 a = none ∨
              ∃ d, parse_u8 a = some d ∧ d ∉ registered_puzzle_numbers)) :=
  claim_C9_thm []

/-! ## Claim C10 -/

lemma splitOn_ne_nil (sep : Char) (l : List Char) : splitOn sep l ≠ [] := by
  cases l with
  | nil => simp [splitOn]
  | cons c rest =>
    rw [splitOn]
    cases hs : splitOn sep rest with
    | nil => simp
    | cons f fs =>
      dsimp only
      by_cases hc : c = sep
      · rw [if_pos hc]
        simp
      · rw [if_neg hc]
        simp

lemma splitOn_append (sep : Char) (a b : List Char) :
    splitOn sep (a ++ sep :: b) = splitOn sep a ++ splitOn sep b := by
  induction a with
  | nil =>
    rw [List.nil_append, show splitOn sep ([] : List Char) = [[]] from rfl,
      splitOn]
    cases hs : splitOn sep b with
    | nil => exact absurd hs (splitOn_ne_nil sep b)
    | cons f fs =>
      dsimp only
      rw [if_pos rfl]
      try rfl
  | cons c a2 ih =>
    rw [List.cons_append, splitOn, ih, splitOn]
    cases hs : splitOn sep a2 with
    | nil => exact absurd hs (splitOn_ne_nil sep a2)
    | cons f fs =>
      dsimp only [List.cons_append]
      by_cases hc : c = sep
      · rw [if_pos hc, if_pos hc]
        try rfl
      · rw [if_neg hc, if_neg hc]
        try rfl

/-- Claim C10: converting a beacon line to a `Position` panics (modelled
as `none`) exactly when the line has fewer than three comma-separated
fields or one of the first three fields fails to parse as an `i32`; and
appending further comma-separated fields to a line that already has three
never changes the result — fields after the third are ignored. -/
theorem claim_C10_thm (line junk : List Char) :
    (Position.from_line line = none ↔
      (splitOn ',' line).length < 3 ∨
        ∃ f ∈ (splitOn ',' line).take 3, parse_i32 f = none) ∧
      (3 ≤ (splitOn ',' line).length →
        Position.from_line (line ++ ',' :: junk) = Position.from_line line) := by
  constructor
  · unfold Position.from_line
    rcases hfs : splitOn ',' line with - | ⟨f1, - | ⟨f2, - | ⟨f3, rest⟩⟩⟩
    · exact absurd hfs (splitOn_ne_nil ',' line)
    · simp
    · simp
    · simp only [List.take_cons, List.take_nil, List.length_cons]
      cases h1 : parse_i32 f1 with
      | none => simp [h1]
      | some x =>
        cases h2 : parse_i32 f2 with
        | none => simp [h1, h2]
        | some y =>
          cases h3 : parse_i32 f3 with
          | none => simp [h1, h2, h3]
          | some z => simp [h1, h2, h3]
  · intro h3
    unfold Position.from_line
    rw [splitOn_append, List.take_append_of_le_length h3]

/-- Concrete instantiation of `claim_C10_thm`: a line with three good
fields parses the same with junk fields appended. -/
theorem claim_C10_witness :
    (3 ≤ (splitOn ',' ['1', ',', '2', ',', '3']).length) ∧
      Position.from_line (['1', ',', '2', ',', '3'] ++ ',' :: ['x']) =
        Position.from_line ['1', ',', '2', ',', '3'] :=
  ⟨by decide,
    (claim_C10_thm ['1', ',', '2', ',', '3'] ['x']).2 (by decide)⟩

end Advent2021
